import Mathlib

/-!
Formal model of the catalog / recommendation core of a small music streaming
web application (`src/app.py`).  The application keeps its data in JSON
files: a shared track store (`links.json`), a popularity feed
(`popular.json`), and per-user history and likes/playlists documents.  The
definitions below embed those data shapes and the operations on them
(`get_song_details`, `get_recommendations`, `log_play`, `toggle_like`,
`add_song_to_playlist`, `fetch_and_save_artist_tracks`,
`update_popular_tracks`); the theorems establish behavioural properties of
the subsystem.
-/

namespace MusicApp

/-- A track metadata record as stored in `links.json` or `popular.json`.
The fields `album` and `duration` may be JSON null; `last_updated` is
present only on ingested or cached-on-demand records, never on popularity
feed entries. -/
structure Track where
  videoId : String
  title : String
  artists : List String
  album : Option String
  duration : Option String
  thumbnail : String
  last_updated : Option String
  deriving DecidableEq, Repr

/-- One entry of a user's play history document. -/
structure HistoryEntry where
  videoId : String
  timestamp : String
  deriving DecidableEq, Repr

/-- A named playlist holding an ordered list of track ids. -/
structure Playlist where
  id : String
  name : String
  songs : List String
  deriving DecidableEq, Repr

/-- The per-user likes-and-playlists document. -/
structure LikesData where
  liked_songs : List String
  playlists : List Playlist
  deriving DecidableEq, Repr

/-- A raw track record as returned by the external provider (YTMusic).
Here `videoId = ""` models a missing or falsy id, `thumbnails` is the list
of thumbnail urls (the code indexes its last element, and an empty list
makes that access raise), `album` is `none` when the provider sends no
album object (the album then defaults to "Single") and `some name?` when it
sends an album object whose `name` lookup yields `name?`.  Artist entries
are modelled by their names. -/
structure RawTrack where
  videoId : String
  title : String
  artists : List String
  album : Option (Option String)
  duration : Option String
  thumbnails : List String
  deriving DecidableEq, Repr

/-- The persistent state seen by the application: the shared track store
(`links.json`), the popularity feed (`popular.json`), each user's history
and likes documents, and the external provider's on-demand song lookup
(`ytmusic.get_song`) already shaped as a track record; `ext` returns `none`
when the provider fails or the client is unavailable. -/
structure AppState where
  links : List Track
  popular : List Track
  userHistory : String → List HistoryEntry
  userLikes : String → LikesData
  ext : String → Option Track

/-- Python's `set(xs)` applied to a list of strings, modelled as keeping
the first occurrence of each element.  The properties proved below use
only membership and duplicate-freeness of the result, which do not depend
on the unspecified order a Python `set` iterates in. -/
def pySet : List String → List String
  | [] => []
  | a :: rest => a :: (pySet rest).filter (fun x => decide (¬ x = a))

/-- Embedding of `get_song_details` (src/app.py:337-370): scan the track
store for the id, then the popularity feed, then fall back to the external
provider (which yields `none` on failure or unavailability). -/
def get_song_details (st : AppState) (videoId : String) : Option Track :=
  match st.links.find? (fun song => decide (song.videoId = videoId)) with
  | some song => some song
  | none =>
    match st.popular.find? (fun song => decide (song.videoId = videoId)) with
    | some song => some song
    | none => st.ext videoId

/-- The artist list of the track `videoId` resolves to, or `[]` when
resolution fails (used only to state score characterisations). -/
def resolvedArtists (st : AppState) (videoId : String) : List String :=
  match get_song_details st videoId with
  | some t => t.artists
  | none => []

/-- Embedding of `artist_scores[artist] = artist_scores.get(artist, 0) + w`
on a Python dict modelled as an association list: an existing key keeps its
position, a new key is appended. -/
def bump : List (String × Nat) → String → Nat → List (String × Nat)
  | [], a, w => [(a, w)]
  | (k, v) :: rest, a, w =>
    if k = a then (k, v + w) :: rest else (k, v) :: bump rest a w

/-- Add weight `w` to every artist of a track, in list order. -/
def bumpAll (scores : List (String × Nat)) (artists : List String) (w : Nat) : List (String × Nat) :=
  artists.foldl (fun s a => bump s a w) scores

/-- Dict lookup `scores.get(a, 0)` on the association-list model. -/
def scoreOf : List (String × Nat) → String → Nat
  | [], _ => 0
  | (k, v) :: rest, a => if k = a then v else scoreOf rest a

/-- The history loop of `get_recommendations` (src/app.py:197-201): each
entry that resolves adds +1 to each of its track's artists. -/
def scoreHistory (st : AppState) : List HistoryEntry → List (String × Nat) → List (String × Nat)
  | [], scores => scores
  | entry :: rest, scores =>
    scoreHistory st rest
      (match get_song_details st entry.videoId with
       | some t => bumpAll scores t.artists 1
       | none => scores)

/-- The likes loop of `get_recommendations` (src/app.py:203-207): each
liked id that resolves adds +5 to each of its track's artists. -/
def scoreLikes (st : AppState) : List String → List (String × Nat) → List (String × Nat)
  | [], scores => scores
  | videoId :: rest, scores =>
    scoreLikes st rest
      (match get_song_details st videoId with
       | some t => bumpAll scores t.artists 5
       | none => scores)

/-- The full artist score table built by `get_recommendations`: history
entries first (+1 each), then liked ids (+5 each), starting from the empty
dict. -/
def artistScoresFor (st : AppState) (history : List HistoryEntry) (liked : List String) : List (String × Nat) :=
  scoreLikes st liked (scoreHistory st history [])

/-- Stable-descending insertion used to model Python's stable
`sorted(..., key=score, reverse=True)`: an element is placed before the
first element whose score is less than or equal to its own, so that
equal-score elements keep their original relative order. -/
def insertDesc (x : String × Nat) : List (String × Nat) → List (String × Nat)
  | [] => [x]
  | y :: rest => if y.2 ≤ x.2 then x :: y :: rest else y :: insertDesc x rest

/-- Stable sort by score, descending (src/app.py:213). -/
def sortDesc : List (String × Nat) → List (String × Nat)
  | [] => []
  | x :: rest => insertDesc x (sortDesc rest)

/-- The top-up loop of `get_recommendations` (src/app.py:225-233): walk the
popularity feed in order, stopping once `limit` entries are gathered,
skipping feed entries already selected, listened to, or liked. -/
def topUp (recommendations : List Track) (popular : List Track) (limit : Nat)
    (listened_ids liked_song_ids : List String) : List Track :=
  match popular with
  | [] => recommendations
  | song :: rest =>
    if limit ≤ recommendations.length then recommendations
    else if ∃ r ∈ recommendations, r.videoId = song.videoId then
      topUp recommendations rest limit listened_ids liked_song_ids
    else if song.videoId ∉ listened_ids ∧ song.videoId ∉ liked_song_ids then
      topUp (recommendations ++ [song]) rest limit listened_ids liked_song_ids
    else topUp recommendations rest limit listened_ids liked_song_ids

/-- Embedding of `get_recommendations` (src/app.py:182-235).  Branches, in
source order: empty history and likes fall back to the first `limit`
popularity entries; an empty artist score table likewise; otherwise the
track store is filtered by top-5 artist affinity excluding listened and
liked ids, topped up from the popularity feed when short of `limit`. -/
def get_recommendations (st : AppState) (username : String) (limit : Nat) : List Track :=
  let history := st.userHistory username
  let liked_song_ids := pySet (st.userLikes username).liked_songs
  if history = [] ∧ liked_song_ids = [] then
    st.popular.take limit
  else
    let artist_scores := artistScoresFor st history liked_song_ids
    if artist_scores = [] then
      st.popular.take limit
    else
      let top_artists := ((sortDesc artist_scores).take 5).map Prod.fst
      let listened_ids := history.map HistoryEntry.videoId
      let recommendations := st.links.filter fun song =>
        decide (song.videoId ∉ listened_ids ∧ song.videoId ∉ liked_song_ids
          ∧ ∃ a ∈ top_artists, a ∈ song.artists)
      if recommendations.length < limit then
        (topUp recommendations st.popular limit listened_ids liked_song_ids).take limit
      else
        recommendations.take limit

/-- Read of the shared track store file (`read_json(LINKS_FILE, [])`). -/
def readLinks (st : AppState) : AppState × List Track := (st, st.links)

/-- Read of the popularity feed file (`read_json(POPULAR_FILE, [])`). -/
def readPopular (st : AppState) : AppState × List Track := (st, st.popular)

/-- Read of a user's history file. -/
def readUserHistory (st : AppState) (username : String) : AppState × List HistoryEntry :=
  (st, st.userHistory username)

/-- Read of a user's likes-and-playlists file. -/
def readUserLikes (st : AppState) (username : String) : AppState × LikesData :=
  (st, st.userLikes username)

/-- State-threaded embedding of `get_song_details`, mirroring the source
statement by statement: it performs two store reads and an external call
and contains no write. -/
def get_song_detailsS (st : AppState) (videoId : String) : AppState × Option Track :=
  let all_songs := readLinks st
  match all_songs.2.find? (fun song => decide (song.videoId = videoId)) with
  | some song => (all_songs.1, some song)
  | none =>
    let popular_songs := readPopular all_songs.1
    match popular_songs.2.find? (fun song => decide (song.videoId = videoId)) with
    | some song => (popular_songs.1, some song)
    | none => (popular_songs.1, popular_songs.1.ext videoId)

/-- State-threaded history scoring loop: each iteration resolves through
`get_song_detailsS`. -/
def scoreHistoryS : AppState → List HistoryEntry → List (String × Nat) → AppState × List (String × Nat)
  | st, [], scores => (st, scores)
  | st, entry :: rest, scores =>
    let res := get_song_detailsS st entry.videoId
    scoreHistoryS res.1 rest
      (match res.2 with
       | some t => bumpAll scores t.artists 1
       | none => scores)

/-- State-threaded likes scoring loop. -/
def scoreLikesS : AppState → List String → List (String × Nat) → AppState × List (String × Nat)
  | st, [], scores => (st, scores)
  | st, videoId :: rest, scores =>
    let res := get_song_detailsS st videoId
    scoreLikesS res.1 rest
      (match res.2 with
       | some t => bumpAll scores t.artists 5
       | none => scores)

/-- State-threaded embedding of `get_recommendations`, composed from store
reads and the state-threaded scoring loops; the source contains no
`write_json` call on any path of this function. -/
def get_recommendationsS (st : AppState) (username : String) (limit : Nat) : AppState × List Track :=
  let h := readUserHistory st username
  let lk := readUserLikes h.1 username
  let history := h.2
  let liked_song_ids := pySet lk.2.liked_songs
  if history = [] ∧ liked_song_ids = [] then
    let pop := readPopular lk.1
    (pop.1, pop.2.take limit)
  else
    let s1 := scoreHistoryS lk.1 history []
    let s2 := scoreLikesS s1.1 liked_song_ids s1.2
    if s2.2 = [] then
      let pop := readPopular s2.1
      (pop.1, pop.2.take limit)
    else
      let top_artists := ((sortDesc s2.2).take 5).map Prod.fst
      let al := readLinks s2.1
      let listened_ids := history.map HistoryEntry.videoId
      let recommendations := al.2.filter fun song =>
        decide (song.videoId ∉ listened_ids ∧ song.videoId ∉ liked_song_ids
          ∧ ∃ a ∈ top_artists, a ∈ song.artists)
      if recommendations.length < limit then
        let pop := readPopular al.1
        (pop.1, (topUp recommendations pop.2 limit listened_ids liked_song_ids).take limit)
      else
        (al.1, recommendations.take limit)

/-- Embedding of `log_play` (src/app.py:447-467) acting on the user's
history document: drop every entry with the played id, push a fresh entry
at the front, and persist only the first 500 entries. -/
def log_play (history : List HistoryEntry) (videoId timestamp : String) : List HistoryEntry :=
  ({ videoId := videoId, timestamp := timestamp } ::
    history.filter (fun item => decide (¬ item.videoId = videoId))).take 500

/-- Embedding of `toggle_like` (src/app.py:470-494) acting on the user's
liked-songs list: view it as a set (`pySet`), remove the id if present,
add it otherwise, and return the new list together with the `is_liked`
flag.  Python serialises the set back to a list in an unspecified order;
the model keeps first-occurrence order and appends a new id at the end —
the proved properties use only membership and duplicate-freeness. -/
def toggle_like (liked_songs : List String) (videoId : String) : List String × Bool :=
  let s := pySet liked_songs
  if videoId ∈ s then (s.erase videoId, false) else (s ++ [videoId], true)

/-- Embedding of `add_song_to_playlist` (src/app.py:530-555) acting on the
user's playlist list: the first playlist whose id matches gets the track
appended at the end unless already present; `none` models the 404 path
when no playlist matches. -/
def add_song_to_playlist : List Playlist → String → String → Option (List Playlist)
  | [], _, _ => none
  | p :: rest, playlistId, videoId =>
    if p.id = playlistId then
      some ((if videoId ∈ p.songs then p else { p with songs := p.songs ++ [videoId] }) :: rest)
    else
      match add_song_to_playlist rest playlistId videoId with
      | some rest2 => some (p :: rest2)
      | none => none

/-- The thumbnail normalisation applied to provider records
(`url.replace('w120-h120', 'w544-h544')`). -/
def normalizeThumb (url : String) : String :=
  url.replace "w120-h120" "w544-h544"

/-- Transformation of one provider track during ingestion
(src/app.py:137-146): `none` models the exception raised when the
thumbnail list is empty, which aborts the whole ingestion. -/
def ingestTrack (t : RawTrack) (now : String) : Option Track :=
  match t.thumbnails.getLast? with
  | none => none
  | some url =>
    some {
      videoId := t.videoId
      title := t.title
      artists := t.artists
      album := match t.album with | none => some "Single" | some n => n
      duration := t.duration
      thumbnail := normalizeThumb url
      last_updated := some now }

/-- The ingestion loop over the provider's track listing
(src/app.py:135-148): keep tracks with a truthy id not already known,
extending the known-id set as the batch grows; `none` models an exception
from the transformation, which discards the whole batch. -/
def collectNewTracks : List RawTrack → List String → String → Option (List Track)
  | [], _, _ => some []
  | t :: rest, existing_ids, now =>
    if ¬ t.videoId = "" ∧ t.videoId ∉ existing_ids then
      match ingestTrack t now with
      | none => none
      | some tr =>
        match collectNewTracks rest (t.videoId :: existing_ids) now with
        | none => none
        | some more => some (tr :: more)
    else
      collectNewTracks rest existing_ids now

/-- Embedding of `fetch_and_save_artist_tracks` (src/app.py:113-158)
acting on the track store.  `provider` bundles the external search and
artist-detail calls: `Except.error` models a raised provider error (caught,
no write), `Except.ok none` models "no artist found" or "no songs section"
(both end with an empty batch and no write), and `Except.ok (some results)`
is the artist's track listing. -/
def fetch_and_save_artist_tracks (links_data : List Track) (ytmusicAvailable : Bool)
    (provider : Except Unit (Option (List RawTrack))) (now : String) : List Track :=
  if ytmusicAvailable = false then links_data
  else
    match provider with
    | Except.error _ => links_data
    | Except.ok none => links_data
    | Except.ok (some results) =>
      match collectNewTracks results (links_data.map Track.videoId) now with
      | none => links_data
      | some [] => links_data
      | some (t :: ts) => links_data ++ t :: ts

/-- Transformation of one chart entry in `update_popular_tracks`
(src/app.py:250-259): like `ingestTrack` but without a `last_updated`
stamp; `none` models the exception on an empty thumbnail list, which
aborts the refresh. -/
def chartTrack (t : RawTrack) : Option Track :=
  match t.thumbnails.getLast? with
  | none => none
  | some url =>
    some {
      videoId := t.videoId
      title := t.title
      artists := t.artists
      album := match t.album with | none => some "Single" | some n => n
      duration := t.duration
      thumbnail := normalizeThumb url
      last_updated := none }

/-- The chart transformation loop of `update_popular_tracks`
(src/app.py:247-259): entries with a falsy id are skipped; an exception in
the transformation (`none`) discards the whole result. -/
def buildPopularTracks : List RawTrack → Option (List Track)
  | [] => some []
  | t :: rest =>
    if t.videoId = "" then buildPopularTracks rest
    else
      match chartTrack t with
      | none => none
      | some tr =>
        match buildPopularTracks rest with
        | none => none
        | some more => some (tr :: more)

/-- Embedding of `update_popular_tracks` (src/app.py:238-268) acting on
the popularity feed: an unavailable client, a provider error, a failed
transformation, or an empty transformed result all leave the feed
untouched; a non-empty result replaces it wholesale. -/
def update_popular_tracks (popular : List Track) (ytmusicAvailable : Bool)
    (chart : Except Unit (List RawTrack)) : List Track :=
  if ytmusicAvailable = false then popular
  else
    match chart with
    | Except.error _ => popular
    | Except.ok items =>
      match buildPopularTracks items with
      | none => popular
      | some [] => popular
      | some (t :: ts) => t :: ts

/-! Concrete states used by witnesses and counterexamples. -/

/-- An empty likes-and-playlists document. -/
def emptyLikes : LikesData := { liked_songs := [], playlists := [] }

/-- Track store record for id "X" used by the resolver precedence witness. -/
def c4StoreTrack : Track :=
  { videoId := "X", title := "store version", artists := ["Foo"], album := none,
    duration := none, thumbnail := "u1", last_updated := some "t0" }

/-- A different record with the same id, placed in the popularity feed. -/
def c4FeedTrack : Track :=
  { videoId := "X", title := "feed version", artists := ["Bar"], album := none,
    duration := none, thumbnail := "u2", last_updated := none }

/-- State seeding the store and the feed with diverging records for "X". -/
def c4State : AppState :=
  { links := [c4StoreTrack], popular := [c4FeedTrack],
    userHistory := fun _ => [], userLikes := fun _ => emptyLikes,
    ext := fun _ => none }

/-- State for a user with no history and no likes. -/
def c3State : AppState :=
  { links := [c4StoreTrack], popular := [c4FeedTrack, c4StoreTrack],
    userHistory := fun _ => [], userLikes := fun _ => emptyLikes,
    ext := fun _ => none }

/-- Concrete history for the `log_play` witness. -/
def c5History : List HistoryEntry :=
  [{ videoId := "a", timestamp := "t1" }, { videoId := "b", timestamp := "t2" }]

/-- Playlist before the add-song witness call. -/
def c6Playlist : Playlist := { id := "pl_1", name := "mix", songs := [] }

/-- Playlist after adding track "v" once. -/
def c6PlaylistAfter : Playlist := { id := "pl_1", name := "mix", songs := ["v"] }

/-- Track liked in the C2 witness state, by artist "A" only. -/
def c2LikedTrack : Track :=
  { videoId := "LX", title := "liked", artists := ["A"], album := none,
    duration := none, thumbnail := "u", last_updated := none }

/-- A track by artist "B" with the given id, for the C2 witness state. -/
def c2PlayedTrack (n : String) : Track :=
  { videoId := n, title := n, artists := ["B"], album := none,
    duration := none, thumbnail := "u", last_updated := none }

/-- State for the C2 witness: the store knows the liked track and five
tracks by artist "B"; the user played the five "B" tracks once each and
liked the "A" track. -/
def c2State : AppState :=
  { links := [c2LikedTrack, c2PlayedTrack "B1", c2PlayedTrack "B2", c2PlayedTrack "B3",
      c2PlayedTrack "B4", c2PlayedTrack "B5"],
    popular := [],
    userHistory := fun _ =>
      [{ videoId := "B1", timestamp := "t" }, { videoId := "B2", timestamp := "t" },
       { videoId := "B3", timestamp := "t" }, { videoId := "B4", timestamp := "t" },
       { videoId := "B5", timestamp := "t" }],
    userLikes := fun _ => { liked_songs := ["LX"], playlists := [] },
    ext := fun _ => none }

/-- Popularity feed track with an empty artist list, liked by the user in
the C1 counterexample state. -/
def c1FeedTrack : Track :=
  { videoId := "X", title := "no artist", artists := [], album := none,
    duration := none, thumbnail := "u", last_updated := none }

/-- C1 counterexample state: the user's only signal is a like of "X",
which resolves through the popularity feed to a record without artists, so
the artist score table stays empty. -/
def c1State : AppState :=
  { links := [], popular := [c1FeedTrack],
    userHistory := fun _ => [],
    userLikes := fun _ => { liked_songs := ["X"], playlists := [] },
    ext := fun _ => none }

/-- A played track by artist "Foo" for the C1 witness state. -/
def c1PlayedTrack : Track :=
  { videoId := "A1", title := "played", artists := ["Foo"], album := none,
    duration := none, thumbnail := "u", last_updated := none }

/-- A fresh track by artist "Foo" for the C1 witness state. -/
def c1FreshTrack : Track :=
  { videoId := "A2", title := "fresh", artists := ["Foo"], album := none,
    duration := none, thumbnail := "u", last_updated := none }

/-- C1 witness state: the user played "A1" by "Foo"; "A2" by "Foo" is the
expected recommendation. -/
def c1WitnessState : AppState :=
  { links := [c1PlayedTrack, c1FreshTrack], popular := [],
    userHistory := fun _ => [{ videoId := "A1", timestamp := "t" }],
    userLikes := fun _ => emptyLikes,
    ext := fun _ => none }

/-- Existing popularity feed entry in the C8 witness. -/
def c8OldTrack : Track :=
  { videoId := "old", title := "old", artists := [], album := none,
    duration := none, thumbnail := "u", last_updated := none }

/-- Chart entry returned by the provider in the C8 witness. -/
def c8Raw : RawTrack :=
  { videoId := "new", title := "fresh hit", artists := ["Z"], album := none,
    duration := none, thumbnails := ["thumb-w120-h120"] }

/-- The transformed form of `c8Raw`. -/
def c8NewTrack : Track :=
  { videoId := "new", title := "fresh hit", artists := ["Z"], album := some "Single",
    duration := none, thumbnail := normalizeThumb "thumb-w120-h120", last_updated := none }

/-! Basic lemmas about the `pySet` model of Python sets. -/

/-- Membership in `pySet l` coincides with membership in `l`. -/
theorem mem_pySet {l : List String} {x : String} : x ∈ pySet l ↔ x ∈ l := by
  induction l with
  | nil => simp [pySet]
  | cons a rest ih =>
    by_cases hx : x = a
    · subst hx; simp [pySet]
    · simp [pySet, List.mem_filter, hx, ih]

/-- The result of `pySet` has no duplicates. -/
theorem nodup_pySet (l : List String) : (pySet l).Nodup := by
  induction l with
  | nil => simp [pySet]
  | cons a rest ih =>
    simp only [pySet]
    refine List.nodup_cons.mpr ⟨?_, ih.filter _⟩
    intro hmem
    have h2 := (List.mem_filter.mp hmem).2
    simp at h2

/-- On a duplicate-free list, `pySet` is the identity. -/
theorem pySet_eq_self {l : List String} (h : l.Nodup) : pySet l = l := by
  induction l with
  | nil => rfl
  | cons a rest ih =>
    rcases List.nodup_cons.mp h with ⟨ha, hrest⟩
    simp only [pySet, ih hrest]
    congr 1
    refine List.filter_eq_self.mpr fun x hx => ?_
    simpa using fun hxa : x = a => ha (hxa ▸ hx)

/-! Claim C4: resolver precedence. -/

/-- C4: `get_song_details` consults the track store first and
short-circuits on a hit, so whenever the store holds a record for the
requested id — in particular when the popularity feed holds a different
record under the same id — the store record is returned. -/
theorem resolver_prefers_track_store (st : AppState) (x : String) (t : Track)
    (h : st.links.find? (fun song => decide (song.videoId = x)) = some t) :
    get_song_details st x = some t := by
  unfold get_song_details
  rw [h]

/-- Witness for C4: with diverging records for "X" in the store and the
feed, resolution returns the store version. -/
theorem resolver_prefers_track_store_witness :
    get_song_details c4State "X" = some c4StoreTrack :=
  resolver_prefers_track_store c4State "X" c4StoreTrack (by decide)

/-! Claim C3: empty history and empty likes fall back to the feed. -/

/-- C3: for every user whose history and liked-songs list are both empty,
`get_recommendations` returns exactly the first `limit` popularity feed
entries in feed order. -/
theorem recommend_empty_user_is_popular_feed (st : AppState) (username : String) (limit : Nat)
    (hhist : st.userHistory username = [])
    (hlikes : (st.userLikes username).liked_songs = []) :
    get_recommendations st username limit = st.popular.take limit := by
  unfold get_recommendations
  rw [hhist, hlikes]
  simp [pySet]

/-- Witness for C3: a concrete empty user receives the feed prefix. -/
theorem recommend_empty_user_witness :
    get_recommendations c3State "alice" 1 = c3State.popular.take 1 :=
  recommend_empty_user_is_popular_feed c3State "alice" 1 rfl rfl

/-! Claim C5: history invariants under `log_play`. -/

/-- Helper: removing the unique occurrence of an id from a duplicate-free
history shortens it by exactly one entry. -/
theorem length_filter_out_id (h : List HistoryEntry) (vid : String)
    (hnd : (h.map HistoryEntry.videoId).Nodup)
    (hm : vid ∈ h.map HistoryEntry.videoId) :
    (h.filter (fun item => decide (¬ item.videoId = vid))).length + 1 = h.length := by
  induction h with
  | nil => simp at hm
  | cons e rest ih =>
    rw [List.map_cons] at hnd hm
    rcases List.nodup_cons.mp hnd with ⟨he, hrest⟩
    by_cases hev : e.videoId = vid
    · have hall : ∀ x ∈ rest, ¬ x.videoId = vid := by
        intro x hx hxv
        have hxm : x.videoId ∈ rest.map HistoryEntry.videoId := List.mem_map_of_mem _ hx
        rw [hxv, ← hev] at hxm
        exact he hxm
      have hfe : rest.filter (fun item => decide (¬ item.videoId = vid)) = rest :=
        List.filter_eq_self.mpr fun x hx => by simpa using hall x hx
      rw [List.filter_cons, if_neg (by simp [hev]), hfe]
      simp
    · have hm2 : vid ∈ rest.map HistoryEntry.videoId := by
        rcases List.mem_cons.mp hm with h1 | h2
        · exact absurd h1.symm hev
        · exact h2
      simp only [List.filter_cons, decide_eq_true_eq, hev, not_false_eq_true, decide_True,
        if_true, List.length_cons]
      have := ih hrest hm2
      omega

/-- C5: after `log_play` the stored history has at most 500 entries;
starting from a duplicate-free history the result is duplicate-free; and
replaying a track already present in a history within the cap keeps the
length unchanged and reinserts the track at the front. -/
theorem log_play_history_invariants (h : List HistoryEntry) (vid ts : String)
    (hnd : (h.map HistoryEntry.videoId).Nodup) :
    (log_play h vid ts).length ≤ 500
    ∧ ((log_play h vid ts).map HistoryEntry.videoId).Nodup
    ∧ (vid ∈ h.map HistoryEntry.videoId → h.length ≤ 500 →
        (log_play h vid ts).length = h.length
        ∧ (log_play h vid ts).head? = some { videoId := vid, timestamp := ts }) := by
  have hsub : (h.filter (fun item => decide (¬ item.videoId = vid))).Sublist h :=
    List.filter_sublist h
  have hmapnd : ((h.filter (fun item => decide (¬ item.videoId = vid))).map
      HistoryEntry.videoId).Nodup :=
    (hsub.map HistoryEntry.videoId).nodup hnd
  have hnotmem : vid ∉ (h.filter (fun item => decide (¬ item.videoId = vid))).map
      HistoryEntry.videoId := by
    intro hmem
    rcases List.mem_map.mp hmem with ⟨x, hx, hxv⟩
    have := (List.mem_filter.mp hx).2
    simp [hxv] at this
  have hLnd : ((({ videoId := vid, timestamp := ts } : HistoryEntry) ::
      h.filter (fun item => decide (¬ item.videoId = vid))).map HistoryEntry.videoId).Nodup := by
    simp only [List.map_cons]
    exact List.nodup_cons.mpr ⟨hnotmem, hmapnd⟩
  refine ⟨?_, ?_, ?_⟩
  · simp only [log_play, List.length_take]
    omega
  · have htk : (log_play h vid ts).Sublist (({ videoId := vid, timestamp := ts } : HistoryEntry) ::
        h.filter (fun item => decide (¬ item.videoId = vid))) := List.take_sublist _ _
    exact (htk.map HistoryEntry.videoId).nodup hLnd
  · intro hmem hlen
    have hflen := length_filter_out_id h vid hnd hmem
    have hnotrunc : log_play h vid ts = ({ videoId := vid, timestamp := ts } : HistoryEntry) ::
        h.filter (fun item => decide (¬ item.videoId = vid)) := by
      unfold log_play
      refine List.take_of_length_le ?_
      simp only [List.length_cons]
      omega
    refine ⟨?_, ?_⟩
    · rw [hnotrunc]
      simp only [List.length_cons]
      omega
    · rw [hnotrunc]
      rfl

/-- Witness for C5: replaying "b" keeps the length at 2 and moves the
fresh entry to the front. -/
theorem log_play_history_witness :
    (log_play c5History "b" "t3").length = c5History.length
    ∧ (log_play c5History "b" "t3").head? = some { videoId := "b", timestamp := "t3" } :=
  (log_play_history_invariants c5History "b" "t3" (by decide)).2.2 (by decide) (by decide)

/-! Claim C10: `toggle_like` is an involution on like membership. -/

/-- C10: one `toggle_like` call flips membership of the toggled id, the
returned `is_liked` flag equals the post-call membership, the resulting
liked list has no duplicates, and a second call with the same id restores
the original membership of every id. -/
theorem toggle_like_involution (liked : List String) (vid : String) :
    ((vid ∈ (toggle_like liked vid).1) ↔ vid ∉ liked)
    ∧ ((toggle_like liked vid).2 = true ↔ vid ∈ (toggle_like liked vid).1)
    ∧ (toggle_like liked vid).1.Nodup
    ∧ ∀ x, x ∈ (toggle_like (toggle_like liked vid).1 vid).1 ↔ x ∈ liked := by
  have hnd : (pySet liked).Nodup := nodup_pySet liked
  by_cases hv : vid ∈ pySet liked
  · have h1 : toggle_like liked vid = ((pySet liked).erase vid, false) := by
      simp only [toggle_like]
      rw [if_pos hv]
    have hvl : vid ∈ liked := mem_pySet.mp hv
    have hnotmem : vid ∉ (pySet liked).erase vid := by
      intro hmem
      exact ((hnd.mem_erase_iff).mp hmem).1 rfl
    have hndE : ((pySet liked).erase vid).Nodup := hnd.erase vid
    refine ⟨?_, ?_, ?_, ?_⟩
    · rw [h1]
      simpa [hnotmem] using hvl
    · rw [h1]
      simp [hnotmem]
    · rw [h1]
      exact hndE
    · intro x
      rw [h1]
      have hset : pySet ((pySet liked).erase vid) = (pySet liked).erase vid :=
        pySet_eq_self hndE
      have h2 : toggle_like ((pySet liked).erase vid) vid
          = ((pySet liked).erase vid ++ [vid], true) := by
        simp only [toggle_like]
        rw [hset, if_neg hnotmem]
      rw [h2]
      by_cases hx : x = vid
      · subst hx
        simp [hvl]
      · simp only [List.mem_append, List.mem_singleton, hx, or_false]
        rw [hnd.mem_erase_iff]
        simp [hx, mem_pySet]
  · have h1 : toggle_like liked vid = (pySet liked ++ [vid], true) := by
      simp only [toggle_like]
      rw [if_neg hv]
    have hvl : vid ∉ liked := fun hm => hv (mem_pySet.mpr hm)
    have hndA : (pySet liked ++ [vid]).Nodup := by
      refine List.Nodup.append hnd (List.nodup_singleton vid) ?_
      intro x hx hx2
      rw [List.mem_singleton] at hx2
      exact hv (hx2 ▸ hx)
    refine ⟨?_, ?_, ?_, ?_⟩
    · rw [h1]
      simp [hvl]
    · rw [h1]
      simp
    · rw [h1]
      exact hndA
    · intro x
      rw [h1]
      have hset : pySet (pySet liked ++ [vid]) = pySet liked ++ [vid] :=
        pySet_eq_self hndA
      have hmem2 : vid ∈ pySet liked ++ [vid] := by simp
      have h2 : toggle_like (pySet liked ++ [vid]) vid = ((pySet liked ++ [vid]).erase vid, false) := by
        simp only [toggle_like]
        rw [hset, if_pos hmem2]
      rw [h2]
      rw [List.erase_append_right _ hv]
      simp [mem_pySet]

/-! Claim C6: `add_song_to_playlist` is idempotent. -/

/-- C6: when `add_song_to_playlist` succeeds, running it again with the
same playlist id and track id returns the same state unchanged, and the
first matching playlist ends up holding the track `max (previous count) 1`
times — in particular exactly once whenever it held it at most once
before. -/
theorem add_song_to_playlist_idempotent (pls : List Playlist) (pid vid : String)
    (pls₁ : List Playlist)
    (h : add_song_to_playlist pls pid vid = some pls₁) :
    add_song_to_playlist pls₁ pid vid = some pls₁
    ∧ ∀ p p₁, pls.find? (fun q => decide (q.id = pid)) = some p →
        pls₁.find? (fun q => decide (q.id = pid)) = some p₁ →
        p₁.songs.count vid = max (p.songs.count vid) 1
        ∧ (p.songs.count vid ≤ 1 → p₁.songs.count vid = 1) := by
  induction pls generalizing pls₁ with
  | nil => simp [add_song_to_playlist] at h
  | cons p rest ih =>
    by_cases hp : p.id = pid
    · rw [add_song_to_playlist, if_pos hp] at h
      by_cases hv : vid ∈ p.songs
      · rw [if_pos hv] at h
        have hpls : pls₁ = p :: rest := by
          injection h with h2
          exact h2.symm
        subst hpls
        have hcnt : 0 < p.songs.count vid := List.count_pos_iff.mpr hv
        refine ⟨?_, ?_⟩
        · rw [add_song_to_playlist, if_pos hp, if_pos hv]
        · intro q q₁ hq hq₁
          rw [List.find?_cons_of_pos _ (by simpa using hp)] at hq hq₁
          injection hq with hq
          injection hq₁ with hq₁
          subst hq
          subst hq₁
          refine ⟨?_, ?_⟩
          · omega
          · intro hle
            omega
      · rw [if_neg hv] at h
        have hpls : pls₁ = { p with songs := p.songs ++ [vid] } :: rest := by
          injection h with h2
          exact h2.symm
        subst hpls
        have hcnt0 : p.songs.count vid = 0 := List.count_eq_zero.mpr hv
        have hmem1 : vid ∈ p.songs ++ [vid] := by simp
        refine ⟨?_, ?_⟩
        · rw [add_song_to_playlist, if_pos hp, if_pos hmem1]
        · intro q q₁ hq hq₁
          rw [List.find?_cons_of_pos _ (by simpa using hp)] at hq hq₁
          injection hq with hq
          injection hq₁ with hq₁
          subst hq
          subst hq₁
          have happ : ({ p with songs := p.songs ++ [vid] } : Playlist).songs.count vid
              = p.songs.count vid + 1 := by
            simp [List.count_append]
          refine ⟨?_, fun _ => ?_⟩ <;> omega
    · rw [add_song_to_playlist, if_neg hp] at h
      cases hrec : add_song_to_playlist rest pid vid with
      | none => rw [hrec] at h; exact absurd h (by simp)
      | some rest2 =>
        rw [hrec] at h
        have hpls : pls₁ = p :: rest2 := by
          injection h with h2
          exact h2.symm
        subst hpls
        obtain ⟨ih1, ih2⟩ := ih rest2 hrec
        refine ⟨?_, ?_⟩
        · rw [add_song_to_playlist, if_neg hp, ih1]
        · intro q q₁ hq hq₁
          rw [List.find?_cons_of_neg _ (by simpa using hp)] at hq hq₁
          exact ih2 q q₁ hq hq₁

/-- Witness for C6: the second identical add is a no-op and the track
appears exactly once. -/
theorem add_song_to_playlist_witness :
    add_song_to_playlist [c6PlaylistAfter] "pl_1" "v" = some [c6PlaylistAfter]
    ∧ c6PlaylistAfter.songs.count "v" = 1 := by
  have h := add_song_to_playlist_idempotent [c6Playlist] "pl_1" "v" [c6PlaylistAfter] (by decide)
  exact ⟨h.1, (h.2 c6Playlist c6PlaylistAfter (by decide) (by decide)).2 (by decide)⟩

/-! Claim C2: score weighting of plays and likes. -/

/-- Helper: a dict bump adds exactly `w` to the bumped artist and changes
no other score. -/
theorem scoreOf_bump (scores : List (String × Nat)) (a b : String) (w : Nat) :
    scoreOf (bump scores a w) b = scoreOf scores b + (if b = a then w else 0) := by
  induction scores with
  | nil =>
    by_cases hba : b = a
    · subst hba
      simp [bump, scoreOf]
    · have hab : ¬ a = b := fun h => hba h.symm
      simp [bump, scoreOf, hab, hba]
  | cons kv rest ih =>
    obtain ⟨k, v⟩ := kv
    by_cases hka : k = a
    · subst hka
      by_cases hkb : k = b
      · subst hkb
        simp [bump, scoreOf]
      · have hbk : ¬ b = k := fun h => hkb h.symm
        simp [bump, scoreOf, hkb, hbk]
    · by_cases hkb : k = b
      · subst hkb
        simp [bump, scoreOf, hka]
      · simp [bump, scoreOf, hka, hkb, ih]

/-- Helper: bumping all artists of a track adds `w` per occurrence of an
artist in the track's artist list. -/
theorem scoreOf_bumpAll (artists : List String) (scores : List (String × Nat)) (b : String) (w : Nat) :
    scoreOf (bumpAll scores artists w) b = scoreOf scores b + w * artists.count b := by
  induction artists generalizing scores with
  | nil => simp [bumpAll]
  | cons a rest ih =>
    simp only [bumpAll, List.foldl_cons]
    have hrw : List.foldl (fun s x => bump s x w) (bump scores a w) rest
        = bumpAll (bump scores a w) rest w := rfl
    rw [hrw, ih (bump scores a w), scoreOf_bump, List.count_cons]
    by_cases hba : b = a
    · subst hba
      simp
      ring
    · have hab : ¬ a = b := fun h => hba h.symm
      simp [hba, hab]

/-- Helper: the history loop adds one point per occurrence of an artist in
a resolved history entry's artist list. -/
theorem scoreOf_scoreHistory (st : AppState) (l : List HistoryEntry) (scores : List (String × Nat)) (b : String) :
    scoreOf (scoreHistory st l scores) b
      = scoreOf scores b + (l.map fun e => (resolvedArtists st e.videoId).count b).sum := by
  induction l generalizing scores with
  | nil => simp [scoreHistory]
  | cons e rest ih =>
    rw [scoreHistory]
    cases hres : get_song_details st e.videoId with
    | none =>
      rw [ih]
      simp [resolvedArtists, hres]
    | some t =>
      rw [ih, scoreOf_bumpAll]
      simp [resolvedArtists, hres]
      omega

/-- Helper: the likes loop adds five points per occurrence of an artist in
a resolved liked track's artist list. -/
theorem scoreOf_scoreLikes (st : AppState) (l : List String) (scores : List (String × Nat)) (b : String) :
    scoreOf (scoreLikes st l scores) b
      = scoreOf scores b + 5 * (l.map fun v => (resolvedArtists st v).count b).sum := by
  induction l generalizing scores with
  | nil => simp [scoreLikes]
  | cons v rest ih =>
    rw [scoreLikes]
    cases hres : get_song_details st v with
    | none =>
      rw [ih]
      simp [resolvedArtists, hres]
    | some t =>
      rw [ih, scoreOf_bumpAll]
      simp [resolvedArtists, hres]
      ring

/-- Helper: closed form of the artist score table. -/
theorem scoreOf_artistScoresFor (st : AppState) (history : List HistoryEntry) (liked : List String) (b : String) :
    scoreOf (artistScoresFor st history liked) b
      = (history.map fun e => (resolvedArtists st e.videoId).count b).sum
        + 5 * (liked.map fun v => (resolvedArtists st v).count b).sum := by
  rw [artistScoresFor, scoreOf_scoreLikes, scoreOf_scoreHistory]
  simp [scoreOf]

/-- C2: in the score table, each resolvable history entry contributes
exactly +1 per occurrence of an artist in its track's artist list and each
resolvable liked track contributes exactly +5 per occurrence; consequently
an artist occurring once among the liked tracks and an artist occurring
five times among the played tracks, and nowhere else, receive equal
scores. -/
theorem liked_play_weighting (st : AppState) (history : List HistoryEntry) (liked : List String) :
    (∀ a, scoreOf (artistScoresFor st history liked) a
        = (history.map fun e => (resolvedArtists st e.videoId).count a).sum
          + 5 * (liked.map fun v => (resolvedArtists st v).count a).sum)
    ∧ ∀ a b,
        (history.map fun e => (resolvedArtists st e.videoId).count a).sum = 0 →
        (liked.map fun v => (resolvedArtists st v).count a).sum = 1 →
        (history.map fun e => (resolvedArtists st e.videoId).count b).sum = 5 →
        (liked.map fun v => (resolvedArtists st v).count b).sum = 0 →
        scoreOf (artistScoresFor st history liked) a
          = scoreOf (artistScoresFor st history liked) b := by
  refine ⟨fun a => scoreOf_artistScoresFor st history liked a, ?_⟩
  intro a b h1 h2 h3 h4
  rw [scoreOf_artistScoresFor, scoreOf_artistScoresFor, h1, h2, h3, h4]

/-- Witness for C2: in `c2State`, artist "A" (one like) and artist "B"
(five plays) receive equal scores. -/
theorem liked_play_weighting_witness :
    scoreOf (artistScoresFor c2State (c2State.userHistory "u") ["LX"]) "A"
      = scoreOf (artistScoresFor c2State (c2State.userHistory "u") ["LX"]) "B" :=
  (liked_play_weighting c2State (c2State.userHistory "u") ["LX"]).2 "A" "B"
    (by decide) (by decide) (by decide) (by decide)

/-! Claim C1: recommendations exclude played and liked tracks. -/

/-- Helper: every track the top-up loop appends to the selection passed
the listened/liked checks. -/
theorem mem_topUp (popular : List Track) (recs : List Track) (limit : Nat)
    (listened liked : List String) (t : Track)
    (hmem : t ∈ topUp recs popular limit listened liked) :
    t ∈ recs ∨ (t.videoId ∉ listened ∧ t.videoId ∉ liked) := by
  induction popular generalizing recs with
  | nil => exact Or.inl (by simpa [topUp] using hmem)
  | cons song rest ih =>
    rw [topUp] at hmem
    by_cases h1 : limit ≤ recs.length
    · rw [if_pos h1] at hmem
      exact Or.inl hmem
    · rw [if_neg h1] at hmem
      by_cases h2 : ∃ r ∈ recs, r.videoId = song.videoId
      · rw [if_pos h2] at hmem
        exact ih recs hmem
      · rw [if_neg h2] at hmem
        by_cases h3 : song.videoId ∉ listened ∧ song.videoId ∉ liked
        · rw [if_pos h3] at hmem
          rcases ih _ hmem with hin | hright
          · rcases List.mem_append.mp hin with h | h
            · exact Or.inl h
            · rw [List.mem_singleton] at h
              subst h
              exact Or.inr h3
          · exact Or.inr hright
        · rw [if_neg h3] at hmem
          exact ih recs hmem

/-- Helper: when every pre-selected track avoids the listened and liked
ids, so does every track of the (possibly topped-up) final selection. -/
theorem topUp_take_exclusion (recs popular : List Track) (limit : Nat)
    (listened liked : List String)
    (hrecs : ∀ s ∈ recs, s.videoId ∉ listened ∧ s.videoId ∉ liked)
    (t : Track)
    (hmem : t ∈ (if recs.length < limit
        then (topUp recs popular limit listened liked).take limit
        else recs.take limit)) :
    t.videoId ∉ listened ∧ t.videoId ∉ liked := by
  by_cases hlen : recs.length < limit
  · rw [if_pos hlen] at hmem
    have htu := List.take_subset _ _ hmem
    rcases mem_topUp popular recs limit listened liked t htu with h | h
    · exact hrecs t h
    · exact h
  · rw [if_neg hlen] at hmem
    exact hrecs t (List.take_subset _ _ hmem)

/-- C1 (amended): provided the artist score table built from the user's
history and likes is non-empty, no track returned by
`get_recommendations` has an id in the user's history or liked songs.
(The all-resolutions-failed fallback returns popularity feed entries
unfiltered; see the counterexample.) -/
theorem recommendations_exclude_history_and_likes (st : AppState) (username : String) (limit : Nat)
    (hscores : artistScoresFor st (st.userHistory username)
        (pySet (st.userLikes username).liked_songs) ≠ []) :
    ∀ t ∈ get_recommendations st username limit,
      t.videoId ∉ (st.userHistory username).map HistoryEntry.videoId
      ∧ t.videoId ∉ (st.userLikes username).liked_songs := by
  intro t hmem
  simp only [get_recommendations] at hmem
  by_cases hempty : st.userHistory username = []
      ∧ pySet (st.userLikes username).liked_songs = []
  · exfalso
    apply hscores
    rw [hempty.1, hempty.2]
    rfl
  · rw [if_neg hempty, if_neg hscores] at hmem
    have hfl := topUp_take_exclusion _ st.popular limit
      ((st.userHistory username).map HistoryEntry.videoId)
      (pySet (st.userLikes username).liked_songs) ?_ t hmem
    · exact ⟨hfl.1, fun hl => hfl.2 (mem_pySet.mpr hl)⟩
    · intro s hs
      have hp := List.of_mem_filter hs
      simp only [decide_eq_true_eq] at hp
      exact ⟨hp.1, hp.2.1⟩

/-- Counterexample to C1 as stated: in `c1State` the fallback for an empty
score table returns the feed unfiltered, including the liked track "X". -/
theorem recommendations_exclusion_counterexample :
    ∃ t ∈ get_recommendations c1State "u" 20,
      t.videoId ∈ (c1State.userLikes "u").liked_songs := by
  refine ⟨c1FeedTrack, ?_, ?_⟩ <;> decide

/-- Witness for C1: in `c1WitnessState` the score table is non-empty, the
returned track "A2" is recommended, and it is neither played nor liked. -/
theorem recommendations_exclusion_witness :
    c1FreshTrack.videoId ∉ (c1WitnessState.userHistory "u").map HistoryEntry.videoId
    ∧ c1FreshTrack.videoId ∉ (c1WitnessState.userLikes "u").liked_songs :=
  recommendations_exclude_history_and_likes c1WitnessState "u" 20 (by decide)
    c1FreshTrack (by decide)

/-! Claim C9: `get_recommendations` and `get_song_details` are pure reads. -/

/-- Helper: the state-threaded resolver equals the pure resolver paired
with the unchanged state. -/
theorem get_song_detailsS_eq (st : AppState) (videoId : String) :
    get_song_detailsS st videoId = (st, get_song_details st videoId) := by
  unfold get_song_detailsS get_song_details readLinks readPopular
  dsimp only
  cases h1 : st.links.find? (fun song => decide (song.videoId = videoId)) with
  | some s => rfl
  | none =>
    cases h2 : st.popular.find? (fun song => decide (song.videoId = videoId)) with
    | some s => rfl
    | none => rfl

/-- Helper: the state-threaded history scoring loop leaves the state
unchanged. -/
theorem scoreHistoryS_eq (st : AppState) (l : List HistoryEntry) (scores : List (String × Nat)) :
    scoreHistoryS st l scores = (st, scoreHistory st l scores) := by
  induction l generalizing scores with
  | nil => rfl
  | cons e rest ih =>
    rw [scoreHistoryS, scoreHistory]
    simp only [get_song_detailsS_eq]
    exact ih _

/-- Helper: the state-threaded likes scoring loop leaves the state
unchanged. -/
theorem scoreLikesS_eq (st : AppState) (l : List String) (scores : List (String × Nat)) :
    scoreLikesS st l scores = (st, scoreLikes st l scores) := by
  induction l generalizing scores with
  | nil => rfl
  | cons v rest ih =>
    rw [scoreLikesS, scoreLikes]
    simp only [get_song_detailsS_eq]
    exact ih _

/-- Helper: the state-threaded recommender equals the pure recommender
paired with the unchanged state. -/
theorem get_recommendationsS_eq (st : AppState) (username : String) (limit : Nat) :
    get_recommendationsS st username limit = (st, get_recommendations st username limit) := by
  simp only [get_recommendationsS, get_recommendations, readUserHistory, readUserLikes,
    readPopular, readLinks, scoreHistoryS_eq, scoreLikesS_eq, artistScoresFor]
  split
  · rfl
  · split
    · rfl
    · split
      · rfl
      · rfl

/-- C9: `get_recommendations` and `get_song_details` are pure reads — the
state-threaded embeddings return every store exactly as it was. -/
theorem recommend_and_resolve_pure_reads (st : AppState) (username videoId : String) (limit : Nat) :
    (get_recommendationsS st username limit).1 = st
    ∧ (get_song_detailsS st videoId).1 = st := by
  rw [get_recommendationsS_eq, get_song_detailsS_eq]
  exact ⟨rfl, rfl⟩

/-! Claim C7: ingestion is idempotent. -/

/-- Helper: the ingestion transformation keeps the provider's id. -/
theorem ingestTrack_videoId (t : RawTrack) (now : String) (tr : Track)
    (h : ingestTrack t now = some tr) : tr.videoId = t.videoId := by
  unfold ingestTrack at h
  cases hl : t.thumbnails.getLast? with
  | none =>
    rw [hl] at h
    exact absurd h (by simp)
  | some url =>
    rw [hl] at h
    injection h with h
    rw [← h]

/-- Helper: whether the ingestion transformation fails does not depend on
the timestamp. -/
theorem ingestTrack_none_mono (t : RawTrack) (now₁ now₂ : String)
    (h : ingestTrack t now₁ = none) : ingestTrack t now₂ = none := by
  unfold ingestTrack at h ⊢
  cases hl : t.thumbnails.getLast? with
  | none => rfl
  | some url =>
    rw [hl] at h
    exact absurd h (by simp)

/-- Helper: whether the batch collection fails does not depend on the
timestamp. -/
theorem collectNewTracks_none_mono (ts : List RawTrack) (ids : List String) (now₁ now₂ : String)
    (h : collectNewTracks ts ids now₁ = none) : collectNewTracks ts ids now₂ = none := by
  induction ts generalizing ids with
  | nil => simp [collectNewTracks] at h
  | cons t rest ih =>
    rw [collectNewTracks] at h ⊢
    by_cases hc : ¬ t.videoId = "" ∧ t.videoId ∉ ids
    · rw [if_pos hc] at h ⊢
      cases hit : ingestTrack t now₁ with
      | none => rw [ingestTrack_none_mono t now₁ now₂ hit]
      | some tr =>
        rw [hit] at h
        cases hit2 : ingestTrack t now₂ with
        | none => rfl
        | some tr2 =>
          cases hrec : collectNewTracks rest (t.videoId :: ids) now₁ with
          | none => rw [ih _ hrec]
          | some more =>
            rw [hrec] at h
            exact absurd h (by simp)
    · rw [if_neg hc] at h ⊢
      exact ih _ h

/-- Helper: once every id a batch run would produce is already known, a
re-run over a larger known-id set collects nothing. -/
theorem collectNewTracks_skip_all (ts : List RawTrack) (ids₁ ids₂ : List String)
    (now₁ now₂ : String) (batch : List Track)
    (h : collectNewTracks ts ids₁ now₁ = some batch)
    (hsub : ∀ v, v ∈ ids₁ → v ∈ ids₂)
    (hbatch : ∀ v, v ∈ batch.map Track.videoId → v ∈ ids₂) :
    collectNewTracks ts ids₂ now₂ = some [] := by
  induction ts generalizing ids₁ ids₂ batch with
  | nil => simp [collectNewTracks]
  | cons t rest ih =>
    rw [collectNewTracks] at h
    rw [collectNewTracks]
    by_cases hc : ¬ t.videoId = "" ∧ t.videoId ∉ ids₁
    · rw [if_pos hc] at h
      cases hit : ingestTrack t now₁ with
      | none =>
        rw [hit] at h
        exact absurd h (by simp)
      | some tr =>
        rw [hit] at h
        cases hrec : collectNewTracks rest (t.videoId :: ids₁) now₁ with
        | none =>
          rw [hrec] at h
          exact absurd h (by simp)
        | some more =>
          rw [hrec] at h
          injection h with h
          have htv : tr.videoId = t.videoId := ingestTrack_videoId t now₁ tr hit
          have hvin : t.videoId ∈ ids₂ := by
            apply hbatch
            rw [← h]
            simp [htv]
          have hc2 : ¬ (¬ t.videoId = "" ∧ t.videoId ∉ ids₂) := fun hcc => hcc.2 hvin
          rw [if_neg hc2]
          refine ih (t.videoId :: ids₁) ids₂ more hrec ?_ ?_
          · intro v hv
            rcases List.mem_cons.mp hv with h1 | h2
            · exact h1 ▸ hvin
            · exact hsub v h2
          · intro v hv
            apply hbatch
            rw [← h]
            simp only [List.map_cons, List.mem_cons]
            exact Or.inr hv
    · rw [if_neg hc] at h
      have hc2 : ¬ (¬ t.videoId = "" ∧ t.videoId ∉ ids₂) := by
        intro hcc
        rcases not_and_or.mp hc with h1 | h1
        · exact hcc.1 (not_not.mp h1)
        · exact hcc.2 (hsub _ (not_not.mp h1))
      rw [if_neg hc2]
      exact ih ids₁ ids₂ batch h hsub hbatch

/-- C7: ingestion is idempotent — running it a second time for the same
artist, with the provider returning the same listing, leaves the track
store exactly as after the first run (the second batch is filtered to
nothing, so no write happens). -/
theorem ingest_idempotent (links : List Track) (avail : Bool)
    (provider : Except Unit (Option (List RawTrack))) (now₁ now₂ : String) :
    fetch_and_save_artist_tracks
        (fetch_and_save_artist_tracks links avail provider now₁) avail provider now₂
      = fetch_and_save_artist_tracks links avail provider now₁ := by
  cases avail with
  | false => rfl
  | true =>
    cases provider with
    | error e => rfl
    | ok o =>
      cases o with
      | none => rfl
      | some results =>
        cases hcol : collectNewTracks results (links.map Track.videoId) now₁ with
        | none =>
          have hmono := collectNewTracks_none_mono results (links.map Track.videoId) now₁ now₂ hcol
          simp [fetch_and_save_artist_tracks, hcol, hmono]
        | some batch =>
          cases batch with
          | nil =>
            have hskip := collectNewTracks_skip_all results (links.map Track.videoId)
              (links.map Track.videoId) now₁ now₂ [] hcol (fun v hv => hv)
              (fun v hv => by simp at hv)
            simp [fetch_and_save_artist_tracks, hcol, hskip]
          | cons b bs =>
            have hskip := collectNewTracks_skip_all results (links.map Track.videoId)
              ((links ++ b :: bs).map Track.videoId) now₁ now₂ (b :: bs) hcol ?_ ?_
            · have hskip2 : collectNewTracks results
                  (links.map Track.videoId ++ b.videoId :: bs.map Track.videoId) now₂
                  = some [] := by simpa using hskip
              simp [fetch_and_save_artist_tracks, hcol, hskip2]
            · intro v hv
              simp only [List.map_append, List.mem_append]
              exact Or.inl hv
            · intro v hv
              simp only [List.map_append, List.mem_append]
              exact Or.inr hv

/-! Claim C8: popularity feed replacement policy. -/

/-- C8: the popularity feed is replaced wholesale exactly when the
transformed chart result is non-empty; an unavailable client, a provider
failure, a failed transformation, or an empty transformed result all leave
the existing feed untouched. -/
theorem update_popular_replacement_policy (popular : List Track) (avail : Bool)
    (chart : Except Unit (List RawTrack)) :
    (avail = false → update_popular_tracks popular avail chart = popular)
    ∧ (∀ e, chart = Except.error e → update_popular_tracks popular avail chart = popular)
    ∧ (∀ items, chart = Except.ok items → buildPopularTracks items = none →
        update_popular_tracks popular avail chart = popular)
    ∧ (∀ items, chart = Except.ok items → buildPopularTracks items = some [] →
        update_popular_tracks popular avail chart = popular)
    ∧ (∀ items ts, avail = true → chart = Except.ok items →
        buildPopularTracks items = some ts → ¬ ts = [] →
        update_popular_tracks popular avail chart = ts) := by
  refine ⟨?_, ?_, ?_, ?_, ?_⟩
  · intro ha
    subst ha
    rfl
  · intro e hc
    subst hc
    cases avail <;> rfl
  · intro items hc hb
    subst hc
    cases avail with
    | false => rfl
    | true => simp [update_popular_tracks, hb]
  · intro items hc hb
    subst hc
    cases avail with
    | false => rfl
    | true => simp [update_popular_tracks, hb]
  · intro items ts ha hc hb hne
    subst ha
    subst hc
    cases ts with
    | nil => exact absurd rfl hne
    | cons t rest => simp [update_popular_tracks, hb]

/-- Witness for C8: a one-entry chart replaces the old feed wholesale. -/
theorem update_popular_witness :
    update_popular_tracks [c8OldTrack] true (Except.ok [c8Raw]) = [c8NewTrack] :=
  (update_popular_replacement_policy [c8OldTrack] true (Except.ok [c8Raw])).2.2.2.2
    [c8Raw] [c8NewTrack] rfl rfl (by rfl) (by simp [c8NewTrack])

end MusicApp
